import Mathlib

/-!
Verification of the camouflage ultrasonic signal generator and jammer
lifecycle (camouflage-core/src/signal.rs, camouflage-core/src/jammer.rs,
camouflage/src/main.rs).

The Rust `f32` arithmetic is idealized: phase accumulators and
configuration fields live in `ℚ` (the phase updates are exact rational
arithmetic in the source, modulo rounding), and sample values live in `ℝ`
with the mathematical sine.  State transitions are computable; only the
`ℝ`-valued sample formulas are noncomputable because they mention
`Real.sin`.
-/

/-- Structure `SignalConfig` from signal.rs: frequency, sample_rate, amplitude,
num_tones, frequency_spread. -/
structure SignalConfig where
  frequency : ℚ
  sample_rate : ℕ
  amplitude : ℚ
  num_tones : ℕ
  frequency_spread : ℚ
deriving DecidableEq

/-- The `Default` impl for `SignalConfig` in signal.rs. -/
def defaultConfig : SignalConfig :=
  { frequency := 23000, sample_rate := 48000, amplitude := 1/4,
    num_tones := 3, frequency_spread := 300 }

/-- Structure `SignalGenerator` from signal.rs: the configuration, the master phase
used by the single-tone path, and one phase accumulator per tone. -/
structure SignalGenerator where
  config : SignalConfig
  phase : ℚ
  tone_phases : List ℚ
deriving DecidableEq

/-- Constructor `SignalGenerator::new`: all phases start at zero, the bank is sized to
`num_tones`. -/
def SignalGenerator.new (c : SignalConfig) : SignalGenerator :=
  { config := c, phase := 0, tone_phases := List.replicate c.num_tones 0 }

/-- The phase wrap in `next_sample`:
`if phase >= 1.0 { phase -= 1.0 }`. -/
def wrap (p : ℚ) : ℚ :=
  if 1 ≤ p then p - 1 else p

/-- The effective frequency of tone `i` in the multi-tone path of
`next_sample`: `frequency + (i - (num_tones - 1)/2) * frequency_spread`. -/
def toneFreq (c : SignalConfig) (i : ℕ) : ℚ :=
  c.frequency + ((i : ℚ) - ((c.num_tones : ℚ) - 1) / 2) * c.frequency_spread

/-- One tone's phase update in `next_sample`:
`*phase += freq / sample_rate` followed by the wrap. -/
def stepTone (c : SignalConfig) (i : ℕ) (p : ℚ) : ℚ :=
  wrap (p + toneFreq c i / (c.sample_rate : ℚ))

/-- The phase updates of the multi-tone loop of `next_sample`, tone `k`
first (the loop enumerates the bank in order). -/
def stepTones (c : SignalConfig) : ℕ → List ℚ → List ℚ
  | _, [] => []
  | k, p :: ps => stepTone c k p :: stepTones c (k + 1) ps

/-- The sample value accumulated by the multi-tone loop of `next_sample`:
each tone contributes `amplitude_per_tone * sin(2π * phase)` with
`amplitude_per_tone = amplitude / num_tones`, using the pre-update phase. -/
noncomputable def toneSum (c : SignalConfig) : List ℚ → ℝ
  | [] => 0
  | p :: ps =>
      ((c.amplitude / (c.num_tones : ℚ) : ℚ) : ℝ)
        * Real.sin (2 * Real.pi * (p : ℝ)) + toneSum c ps

/-- The state transition of `SignalGenerator::next_sample`: the single-tone
path advances the master phase by `frequency / sample_rate` and wraps; the
multi-tone path advances every tone's accumulator by its own frequency. -/
def SignalGenerator.step (g : SignalGenerator) : SignalGenerator :=
  if g.config.num_tones = 1 then
    { g with phase := wrap (g.phase + g.config.frequency / (g.config.sample_rate : ℚ)) }
  else
    { g with tone_phases := stepTones g.config 0 g.tone_phases }

/-- The value returned by `SignalGenerator::next_sample`:
`amplitude * sin(2π * phase)` in the single-tone path, the sum of the
per-tone contributions in the multi-tone path. -/
noncomputable def SignalGenerator.sampleOf (g : SignalGenerator) : ℝ :=
  if g.config.num_tones = 1 then
    (g.config.amplitude : ℝ) * Real.sin (2 * Real.pi * (g.phase : ℝ))
  else
    toneSum g.config g.tone_phases

/-- Method `SignalGenerator::next_sample`: returns one sample and advances the
state by one sample period. -/
noncomputable def SignalGenerator.next_sample (g : SignalGenerator) :
    ℝ × SignalGenerator :=
  (g.sampleOf, g.step)

/-- Method `SignalGenerator::generate_buffer`: overwrites each slot of the buffer,
in order, with `next_sample()`. -/
noncomputable def SignalGenerator.generate_buffer (g : SignalGenerator) :
    List ℝ → List ℝ × SignalGenerator
  | [] => ([], g)
  | _ :: rest =>
      let sg := g.next_sample
      let r := SignalGenerator.generate_buffer sg.2 rest
      (sg.1 :: r.1, r.2)

/-- The spec-side reference for `generate_buffer`: call `next_sample()`
`n` times and record the results in order. -/
noncomputable def SignalGenerator.samplesList (g : SignalGenerator) :
    ℕ → List ℝ × SignalGenerator
  | 0 => ([], g)
  | Nat.succ n =>
      let sg := g.next_sample
      let r := SignalGenerator.samplesList sg.2 n
      (sg.1 :: r.1, r.2)

/-- Method `SignalGenerator::update_config`: replaces the configuration, resizes
the bank to the new `num_tones` with zero phases, and zeroes the master
phase. -/
def SignalGenerator.update_config (g : SignalGenerator) (c : SignalConfig) :
    SignalGenerator :=
  { g with config := c, tone_phases := List.replicate c.num_tones 0, phase := 0 }

/-! ## Jammer lifecycle (jammer.rs)

The cpal device and stream handles are abstracted: a stream handle is a
bare identifier, and the outcome of `build_output_stream` is passed in as
an `Option` (none when the device rejects the stream).  What matters for
the claims is the state machine on `stream : Option Stream`. -/

/-- Errors a `start` call can surface in jammer.rs: both come from cpal
(`build_output_stream` / `play`); there is no other error path. -/
inductive StartError
  | deviceUnavailable
  | streamSetupFailed
deriving DecidableEq

/-- Structure `SpeakerJammer`: a generator behind a shared handle and an optional
live stream (`None` when stopped). -/
structure SpeakerJammer where
  generator : SignalGenerator
  stream : Option ℕ
deriving DecidableEq

/-- Constructor `SpeakerJammer::new`: overwrites the requested sample rate with the
device's actual rate, builds the generator, starts with no stream. -/
def SpeakerJammer.new (c : SignalConfig) (deviceRate : ℕ) : SpeakerJammer :=
  { generator := SignalGenerator.new { c with sample_rate := deviceRate },
    stream := none }

/-- Method `SpeakerJammer::start`: builds an output stream (unconditionally — the
current state is never inspected), plays it, and stores it in
`self.stream`, replacing (and thereby dropping) any previous stream.
`newStream` is the result of `build_output_stream`. -/
def SpeakerJammer.start (newStream : Option ℕ) (j : SpeakerJammer) :
    Except StartError SpeakerJammer :=
  match newStream with
  | none => Except.error StartError.streamSetupFailed
  | some s => Except.ok { j with stream := some s }

/-- Method `SpeakerJammer::stop`: `if let Some(stream) = self.stream.take()` —
takes the stream out (dropping it) and is a no-op when there is none;
it returns `()` and cannot fail. -/
def SpeakerJammer.stop (j : SpeakerJammer) : SpeakerJammer :=
  { j with stream := none }

/-- Structure `SystemJammer`: wraps a `SpeakerJammer` plus the mix ratio
(field `mix_ratio` in the source). -/
structure SystemJammer where
  speaker_jammer : SpeakerJammer
  mixr : ℚ
deriving DecidableEq

/-- Constructor `SystemJammer::new`: logs the mix ratio and falls back to a
`SpeakerJammer` built from the same signal config. -/
def SystemJammer.new (c : SignalConfig) (deviceRate : ℕ) (r : ℚ) :
    SystemJammer :=
  { speaker_jammer := SpeakerJammer.new c deviceRate, mixr := r }

/-- Method `SystemJammer::start`: logs the mix ratio and delegates to
`SpeakerJammer::start`. -/
def SystemJammer.start (newStream : Option ℕ) (j : SystemJammer) :
    Except StartError SystemJammer :=
  Except.map (fun sj => { j with speaker_jammer := sj })
    (SpeakerJammer.start newStream j.speaker_jammer)

/-- Method `SystemJammer::stop`: delegates to `SpeakerJammer::stop`. -/
def SystemJammer.stop (j : SystemJammer) : SystemJammer :=
  { j with speaker_jammer := SpeakerJammer.stop j.speaker_jammer }

/-! ## CLI validation and system-mode messages (main.rs) -/

/-- The quantity `min_freq` computed by `main` before starting any jammer:
`frequency - (num_tones as f32 / 2.0) * frequency_spread` (real division,
not integer division). -/
def min_freq (c : SignalConfig) : ℚ :=
  c.frequency - ((c.num_tones : ℚ) / 2) * c.frequency_spread

/-- The quantity `max_freq` computed by `main`:
`frequency + (num_tones as f32 / 2.0) * frequency_spread`. -/
def max_freq (c : SignalConfig) : ℚ :=
  c.frequency + ((c.num_tones : ℚ) / 2) * c.frequency_spread

/-- The frequency adjustment in `main`: when `min_freq < 20000` the base
frequency is raised to `20000 + (num_tones / 2.0) * frequency_spread + 500`;
otherwise the config passes through unmodified (`max_freq > 24000` only
prints a warning). -/
def adjustConfig (c : SignalConfig) : SignalConfig :=
  if min_freq c < 20000 then
    { c with frequency := 20000 + ((c.num_tones : ℚ) / 2) * c.frequency_spread + 500 }
  else
    c

/-- The user-visible messages printed by `run_system_jammer` in main.rs,
modelled as tags (the source prints fixed strings). -/
inductive Msg
  | systemActive
  | mixingWithSystemAudio
  | interferesWithRecording
  | degradationNote
deriving DecidableEq

/-- The message list `run_system_jammer` prints after a successful start;
`degradationNote` stands for the line noting that full virtual audio
device support requires a platform-specific implementation (the fallback
is announced, not silent). -/
def systemModeMsgs : List Msg :=
  [Msg.systemActive, Msg.mixingWithSystemAudio,
   Msg.interferesWithRecording, Msg.degradationNote]

/-- The single-tone test configuration of the periodicity law:
frequency 1000, sample rate 48000, amplitude 1. -/
def cfg1000 : SignalConfig :=
  { frequency := 1000, sample_rate := 48000, amplitude := 1,
    num_tones := 1, frequency_spread := 300 }

/-- A zero-tone configuration (`num_tones == 0`), otherwise default. -/
def cfgZeroTones : SignalConfig :=
  { frequency := 23000, sample_rate := 48000, amplitude := 1/4,
    num_tones := 0, frequency_spread := 300 }

/-- The validation example config: five tones spaced 400 Hz around
22000 Hz. -/
def cfg5tones : SignalConfig :=
  { frequency := 22000, sample_rate := 48000, amplitude := 1/4,
    num_tones := 5, frequency_spread := 400 }

/-- A speaker jammer that is Active (a live stream with handle 0). -/
def activeJammer : SpeakerJammer :=
  { generator := SignalGenerator.new defaultConfig, stream := some 0 }

/-! ## Theorems -/

/-- C3: `generate_buffer` on a buffer of `n` slots writes, in order,
exactly the `n` values that `n` successive `next_sample()` calls would
return from the same state, and leaves the generator in the same final
state. -/
theorem generate_buffer_eq_repeated_next_sample
    (g : SignalGenerator) (buf : List ℝ) :
    g.generate_buffer buf = g.samplesList buf.length := by
  induction buf generalizing g with
  | nil => rfl
  | cons b rest ih =>
      simp [SignalGenerator.generate_buffer, SignalGenerator.samplesList, ih]

/-- C5: `update_config` resets the master phase and every tone phase to
zero and resizes the bank to the new tone count, so the resulting state —
and hence every subsequent sample sequence — is identical to that of a
freshly constructed generator with the same config. -/
theorem update_config_eq_fresh_generator
    (g : SignalGenerator) (c : SignalConfig) :
    g.update_config c = SignalGenerator.new c
      ∧ ∀ n : ℕ, (g.update_config c).samplesList n
          = (SignalGenerator.new c).samplesList n := by
  exact ⟨rfl, fun n => rfl⟩

/-- Unfolding `step` in the single-tone branch: it only advances the master phase. -/
lemma step_single_tone (g : SignalGenerator) (h : g.config.num_tones = 1) :
    g.step
      = { g with
          phase := wrap (g.phase + g.config.frequency / (g.config.sample_rate : ℚ)) } := by
  simp [SignalGenerator.step, h]

/-- Unfolding `step` in the multi-tone branch: it only advances the tone accumulators. -/
lemma step_multi_tone (g : SignalGenerator) (h : g.config.num_tones ≠ 1) :
    g.step = { g with tone_phases := stepTones g.config 0 g.tone_phases } := by
  simp [SignalGenerator.step, h]

/-- Closed form for the phase of the 1000 Hz / 48 kHz single-tone
generator: after `n` steps the master phase is `(n mod 48) / 48`. -/
lemma cfg1000_state (n : ℕ) :
    SignalGenerator.step^[n] (SignalGenerator.new cfg1000)
      = { config := cfg1000, phase := ((n % 48 : ℕ) : ℚ) / 48,
          tone_phases := List.replicate 1 0 } := by
  induction n with
  | zero => simp [SignalGenerator.new, cfg1000, List.replicate]
  | succ n ih =>
      have hphase :
          wrap (((n % 48 : ℕ) : ℚ) / 48
              + cfg1000.frequency / ((cfg1000.sample_rate : ℕ) : ℚ))
            = (((n + 1) % 48 : ℕ) : ℚ) / 48 := by
        have hd : cfg1000.frequency / ((cfg1000.sample_rate : ℕ) : ℚ) = 1 / 48 := by
          norm_num [cfg1000]
        rw [hd]
        simp only [wrap]
        rcases Nat.lt_or_ge (n % 48) 47 with hk | hk
        · have h48 : (n + 1) % 48 = n % 48 + 1 := by omega
          have hx : ((n % 48 : ℕ) : ℚ) < 47 := by exact_mod_cast hk
          rw [if_neg (by linarith), h48]
          push_cast
          ring
        · have h47 : n % 48 = 47 := by
            have := Nat.mod_lt n (y := 48) (by norm_num)
            omega
          have h48 : (n + 1) % 48 = 0 := by omega
          rw [h47, h48]
          norm_num
      rw [Function.iterate_succ_apply', ih, step_single_tone _ rfl]
      show ({ config := cfg1000,
              phase := wrap (((n % 48 : ℕ) : ℚ) / 48
                + cfg1000.frequency / ((cfg1000.sample_rate : ℕ) : ℚ)),
              tone_phases := List.replicate 1 0 } : SignalGenerator) = _
      rw [hphase]

/-- C4: with frequency 1000, sample rate 48000 and amplitude 1, the first
sample is exactly 0, after 48 samples the phase has wrapped back to 0, and
sample 48 equals sample 0 (exactly, in the rational-phase model). -/
theorem single_tone_period_48_samples :
    (SignalGenerator.new cfg1000).sampleOf = 0
      ∧ (SignalGenerator.step^[48] (SignalGenerator.new cfg1000)).phase = 0
      ∧ (SignalGenerator.step^[48] (SignalGenerator.new cfg1000)).sampleOf
          = (SignalGenerator.new cfg1000).sampleOf := by
  have hfix : SignalGenerator.step^[48] (SignalGenerator.new cfg1000)
      = SignalGenerator.new cfg1000 := by
    rw [cfg1000_state 48]
    simp [SignalGenerator.new, cfg1000]
  refine ⟨?_, ?_, ?_⟩
  · simp [SignalGenerator.sampleOf, SignalGenerator.new, cfg1000]
  · rw [hfix]; rfl
  · rw [hfix]

/-- C6 (code bug): a configuration with `num_tones == 0` is not rejected —
no `ConfigurationError` exists anywhere in the code — and
`SignalGenerator::new` happily constructs a generator whose `next_sample`
returns 0.0 forever: exactly the silent zero-tone output the spec forbids. -/
theorem zero_tone_config_not_rejected_silent :
    (SignalGenerator.new cfgZeroTones).step = SignalGenerator.new cfgZeroTones
      ∧ ∀ n : ℕ,
          (SignalGenerator.step^[n] (SignalGenerator.new cfgZeroTones)).sampleOf
            = 0 := by
  have hfix : (SignalGenerator.new cfgZeroTones).step
      = SignalGenerator.new cfgZeroTones := by
    simp [SignalGenerator.step, SignalGenerator.new, cfgZeroTones, stepTones]
  refine ⟨hfix, fun n => ?_⟩
  rw [Function.iterate_fixed hfix n]
  simp [SignalGenerator.sampleOf, SignalGenerator.new, cfgZeroTones, toneSum]

/-- C7 (counterexample): calling `start()` on a session that is already
Active (stream handle 0 live) does not return an `AlreadyActive` error —
it succeeds, replacing the old stream with the new one (handle 1). -/
theorem start_on_active_not_already_active_cex :
    SpeakerJammer.start (some 1) activeJammer
        = Except.ok { generator := SignalGenerator.new defaultConfig,
                      stream := some 1 }
      ∧ activeJammer.stream = some 0 := by
  exact ⟨rfl, rfl⟩

/-- C7 (amended): `start()` on an Active session succeeds and replaces the
running stream (implicit stop-then-restart, the old stream being dropped,
not orphaned); `stop()` on an Idle session is a no-op, `stop()` is
idempotent and never fails (it is total). -/
theorem start_replaces_stream_stop_idempotent :
    ∀ (j : SpeakerJammer) (s : ℕ) (g : SignalGenerator),
      SpeakerJammer.start (some s) j = Except.ok { j with stream := some s }
        ∧ SpeakerJammer.stop { generator := g, stream := none }
            = { generator := g, stream := none }
        ∧ SpeakerJammer.stop (SpeakerJammer.stop j) = SpeakerJammer.stop j := by
  exact fun j s g => ⟨rfl, rfl, rfl⟩

/-- C8 (counterexample): for five tones spaced 400 Hz around 22000 Hz the
validation in `main` computes `min_tone` with `num_tones as f32 / 2.0`
(that is 2.5, not the integer 2), so it computes 21000 — not the claimed
21200 — and `max_tone` 23000, not 22800. -/
theorem validation_min_tone_value_cex :
    min_freq cfg5tones = 21000 ∧ max_freq cfg5tones = 23000
      ∧ min_freq cfg5tones ≠ 21200 ∧ max_freq cfg5tones ≠ 22800 := by
  refine ⟨?_, ?_, ?_, ?_⟩ <;> norm_num [min_freq, max_freq, cfg5tones]

/-- C8 (amended): validation computes
`min_tone = base - (tone_count / 2) * spacing` with real division; for
tone_count 5, spacing 400, base 22000 this gives `min_tone = 21000` and
`max_tone = 23000`, both within `[20000, 24000]`, and the configuration is
accepted unmodified; for base 19000 with tone_count 1 the base frequency
is raised to at least 20000 before any generator is constructed. -/
theorem validation_accepts_in_band_and_raises_low_base :
    adjustConfig cfg5tones = cfg5tones
      ∧ min_freq cfg5tones = 21000 ∧ max_freq cfg5tones = 23000
      ∧ 20000 ≤ min_freq cfg5tones ∧ max_freq cfg5tones ≤ 24000
      ∧ ∀ (a s : ℚ), 0 ≤ s →
          20000 ≤ (adjustConfig
            { frequency := 19000, sample_rate := 48000, amplitude := a,
              num_tones := 1, frequency_spread := s }).frequency := by
  refine ⟨?_, ?_, ?_, ?_, ?_, ?_⟩
  · rw [adjustConfig, if_neg]
    norm_num [min_freq, cfg5tones]
  · norm_num [min_freq, cfg5tones]
  · norm_num [max_freq, cfg5tones]
  · norm_num [min_freq, cfg5tones]
  · norm_num [max_freq, cfg5tones]
  · intro a s hs
    rw [adjustConfig, if_pos]
    · show (20000 : ℚ) ≤ 20000 + ((1 : ℕ) : ℚ) / 2 * s + 500
      push_cast
      linarith
    · show min_freq _ < 20000
      simp only [min_freq]
      push_cast
      linarith

/-- C8 (witness): the low-base branch of the amended validation claim at
the concrete spread 300. -/
theorem validation_low_base_witness :
    (0 : ℚ) ≤ 300
      ∧ 20000 ≤ (adjustConfig
          { frequency := 19000, sample_rate := 48000, amplitude := 1/4,
            num_tones := 1, frequency_spread := 300 }).frequency :=
  ⟨by norm_num,
   validation_accepts_in_band_and_raises_low_base.2.2.2.2.2 (1/4) 300
     (by norm_num)⟩

/-- C9: for every configuration and every mix ratio, the system-jamming
mode wraps exactly the speaker-mode jammer: its generator and stream
lifecycle are those of `SpeakerJammer` and do not depend on the mix ratio,
and the system-mode runner announces the degradation (the note that full
virtual-device support is missing) instead of silently pretending to mix. -/
theorem system_jammer_delegates_to_speaker :
    ∀ (c : SignalConfig) (dr : ℕ) (r r' : ℚ) (ns : Option ℕ)
      (j : SystemJammer),
      (SystemJammer.new c dr r).speaker_jammer = SpeakerJammer.new c dr
        ∧ (SystemJammer.new c dr r).speaker_jammer
            = (SystemJammer.new c dr r').speaker_jammer
        ∧ Except.map SystemJammer.speaker_jammer (SystemJammer.start ns j)
            = SpeakerJammer.start ns j.speaker_jammer
        ∧ (SystemJammer.stop j).speaker_jammer
            = SpeakerJammer.stop j.speaker_jammer
        ∧ Msg.degradationNote ∈ systemModeMsgs := by
  intro c dr r r' ns j
  refine ⟨rfl, rfl, ?_, rfl, ?_⟩
  · cases ns <;> rfl
  · simp [systemModeMsgs]

/-- The multi-tone loop updates the accumulator at position `i` with the
frequency of tone `k + i`, where `k` is the index of the first tone of the
sublist. -/
lemma stepTones_get (c : SignalConfig) :
    ∀ (ps : List ℚ) (k i : ℕ),
      (stepTones c k ps)[i]?
        = Option.map (fun p => stepTone c (k + i) p) ps[i]? := by
  intro ps
  induction ps with
  | nil => intro k i; simp [stepTones]
  | cons p ps ih =>
      intro k i
      cases i with
      | zero => simp [stepTones]
      | succ i =>
          have hk : k + 1 + i = k + (i + 1) := by omega
          simp only [stepTones, List.getElem?_cons_succ]
          rw [ih, hk]

/-- C2: in the multi-tone path, the phase accumulator of tone `i` is
advanced using the frequency
`base_frequency + (i - (tone_count - 1)/2) * tone_spacing`; with three
tones, base 23000 and spacing 300 the effective tone frequencies are
exactly 22700, 23000 and 23300 Hz. -/
theorem tone_frequencies_symmetric (g : SignalGenerator) (i : ℕ) (p : ℚ)
    (hn : 1 < g.config.num_tones)
    (hp : g.tone_phases[i]? = some p) :
    g.step.tone_phases[i]?
        = some (wrap (p + toneFreq g.config i / (g.config.sample_rate : ℚ)))
      ∧ toneFreq defaultConfig 0 = 22700
      ∧ toneFreq defaultConfig 1 = 23000
      ∧ toneFreq defaultConfig 2 = 23300 := by
  refine ⟨?_, ?_, ?_, ?_⟩
  · rw [step_multi_tone _ (by omega : g.config.num_tones ≠ 1)]
    show (stepTones g.config 0 g.tone_phases)[i]? = _
    rw [stepTones_get, hp]
    simp [stepTone]
  · norm_num [toneFreq, defaultConfig]
  · norm_num [toneFreq, defaultConfig]
  · norm_num [toneFreq, defaultConfig]

/-- C2 (witness): the default three-tone generator, tone 0, phase 0. -/
theorem tone_frequencies_witness :
    1 < (SignalGenerator.new defaultConfig).config.num_tones
      ∧ (SignalGenerator.new defaultConfig).tone_phases[0]? = some 0
      ∧ ((SignalGenerator.new defaultConfig).step.tone_phases[0]?
          = some (wrap (0 + toneFreq (SignalGenerator.new defaultConfig).config 0
              / ((SignalGenerator.new defaultConfig).config.sample_rate : ℚ)))
        ∧ toneFreq defaultConfig 0 = 22700
        ∧ toneFreq defaultConfig 1 = 23000
        ∧ toneFreq defaultConfig 2 = 23300) :=
  ⟨by norm_num [SignalGenerator.new, defaultConfig],
   by simp [SignalGenerator.new, defaultConfig, List.replicate],
   tone_frequencies_symmetric (SignalGenerator.new defaultConfig) 0 0
     (by norm_num [SignalGenerator.new, defaultConfig])
     (by simp [SignalGenerator.new, defaultConfig, List.replicate])⟩

/-- The transition `step` never changes the configuration. -/
lemma step_config (g : SignalGenerator) : g.step.config = g.config := by
  by_cases h : g.config.num_tones = 1
  · rw [step_single_tone g h]
  · rw [step_multi_tone g h]

/-- The multi-tone loop preserves the size of the oscillator bank. -/
lemma stepTones_length (c : SignalConfig) :
    ∀ (ps : List ℚ) (k : ℕ), (stepTones c k ps).length = ps.length := by
  intro ps
  induction ps with
  | nil => intro k; rfl
  | cons p ps ih => intro k; simp [stepTones, ih]

/-- The transition `step` preserves the size of the oscillator bank. -/
lemma step_length (g : SignalGenerator) :
    g.step.tone_phases.length = g.tone_phases.length := by
  by_cases h : g.config.num_tones = 1
  · rw [step_single_tone g h]
  · rw [step_multi_tone g h]
    exact stepTones_length g.config g.tone_phases 0

/-- Each tone's contribution is bounded by the per-tone amplitude. -/
lemma sin_term_abs_le (a : ℚ) (n : ℕ) (p : ℚ) (ha : 0 ≤ a) :
    |((a / (n : ℚ) : ℚ) : ℝ) * Real.sin (2 * Real.pi * (p : ℝ))|
      ≤ (a : ℝ) / (n : ℝ) := by
  have hcast : ((a / (n : ℚ) : ℚ) : ℝ) = (a : ℝ) / (n : ℝ) := by push_cast; ring
  have hnn : (0 : ℝ) ≤ (a : ℝ) / (n : ℝ) :=
    div_nonneg (by exact_mod_cast ha) (Nat.cast_nonneg n)
  rw [hcast, abs_mul, abs_of_nonneg hnn]
  calc (a : ℝ) / (n : ℝ) * |Real.sin (2 * Real.pi * (p : ℝ))|
      ≤ (a : ℝ) / (n : ℝ) * 1 :=
        mul_le_mul_of_nonneg_left (Real.abs_sin_le_one _) hnn
    _ = (a : ℝ) / (n : ℝ) := mul_one _

/-- The multi-tone sum of `k` tones is bounded by `k` per-tone amplitudes. -/
lemma toneSum_abs_le (c : SignalConfig) (ha : 0 ≤ c.amplitude) :
    ∀ ps : List ℚ,
      |toneSum c ps|
        ≤ (ps.length : ℝ) * ((c.amplitude : ℝ) / (c.num_tones : ℝ)) := by
  intro ps
  induction ps with
  | nil => simp [toneSum]
  | cons p ps ih =>
      have hterm := sin_term_abs_le c.amplitude c.num_tones p ha
      calc |toneSum c (p :: ps)|
          ≤ |((c.amplitude / (c.num_tones : ℚ) : ℚ) : ℝ)
                * Real.sin (2 * Real.pi * (p : ℝ))| + |toneSum c ps| := by
            rw [toneSum]
            exact abs_add _ _
        _ ≤ (c.amplitude : ℝ) / (c.num_tones : ℝ)
              + (ps.length : ℝ) * ((c.amplitude : ℝ) / (c.num_tones : ℝ)) := by
            exact add_le_add hterm ih
        _ = ((p :: ps).length : ℝ) * ((c.amplitude : ℝ) / (c.num_tones : ℝ)) := by
            simp [List.length_cons]
            ring

/-- One `next_sample` value lies in `[-amplitude, amplitude]`. -/
lemma sampleOf_abs_le (g : SignalGenerator) (ha : 0 ≤ g.config.amplitude)
    (hn : 1 ≤ g.config.num_tones)
    (hw : g.tone_phases.length = g.config.num_tones) :
    |g.sampleOf| ≤ (g.config.amplitude : ℝ) := by
  have haR : (0 : ℝ) ≤ (g.config.amplitude : ℝ) := by exact_mod_cast ha
  by_cases h : g.config.num_tones = 1
  · rw [SignalGenerator.sampleOf, if_pos h, abs_mul, abs_of_nonneg haR]
    calc (g.config.amplitude : ℝ) * |Real.sin (2 * Real.pi * (g.phase : ℝ))|
        ≤ (g.config.amplitude : ℝ) * 1 :=
          mul_le_mul_of_nonneg_left (Real.abs_sin_le_one _) haR
      _ = (g.config.amplitude : ℝ) := mul_one _
  · rw [SignalGenerator.sampleOf, if_neg h]
    have hne : ((g.config.num_tones : ℕ) : ℝ) ≠ 0 :=
      Nat.cast_ne_zero.mpr (by omega)
    calc |toneSum g.config g.tone_phases|
        ≤ (g.tone_phases.length : ℝ)
            * ((g.config.amplitude : ℝ) / (g.config.num_tones : ℝ)) :=
          toneSum_abs_le g.config ha g.tone_phases
      _ = (g.config.amplitude : ℝ) := by
          rw [hw]
          field_simp

/-- Every slot written by `generate_buffer` is bounded by the amplitude. -/
lemma generate_buffer_abs_le (buf : List ℝ) :
    ∀ g : SignalGenerator, 0 ≤ g.config.amplitude →
      1 ≤ g.config.num_tones →
      g.tone_phases.length = g.config.num_tones →
      ∀ x ∈ (g.generate_buffer buf).1, |x| ≤ (g.config.amplitude : ℝ) := by
  induction buf with
  | nil =>
      intro g _ _ _ x hx
      simp [SignalGenerator.generate_buffer] at hx
  | cons b rest ih =>
      intro g ha hn hw x hx
      simp only [SignalGenerator.generate_buffer, SignalGenerator.next_sample,
        List.mem_cons] at hx
      rcases hx with rfl | hx
      · exact sampleOf_abs_le g ha hn hw
      · have ha' : 0 ≤ g.step.config.amplitude := by rw [step_config]; exact ha
        have hn' : 1 ≤ g.step.config.num_tones := by rw [step_config]; exact hn
        have hw' : g.step.tone_phases.length = g.step.config.num_tones := by
          rw [step_length, step_config]; exact hw
        have := ih g.step ha' hn' hw' x hx
        rwa [step_config] at this

/-- C1: for every generator whose configuration has amplitude in `[0, 1]`
and at least one tone (and a bank sized to the tone count, as `new` and
`update_config` guarantee), the value returned by `next_sample` lies in
`[-amplitude, amplitude]`; each of the tones of the multi-tone path
contributes at most `amplitude / tone_count`; and every slot written by
`generate_buffer` obeys the same `[-amplitude, amplitude]` bound. -/
theorem next_sample_in_amplitude_range (g : SignalGenerator) (buf : List ℝ)
    (h0 : 0 ≤ g.config.amplitude) (_h1 : g.config.amplitude ≤ 1)
    (hn : 1 ≤ g.config.num_tones)
    (hw : g.tone_phases.length = g.config.num_tones) :
    |g.sampleOf| ≤ (g.config.amplitude : ℝ)
      ∧ (∀ p : ℚ,
          |((g.config.amplitude / (g.config.num_tones : ℚ) : ℚ) : ℝ)
              * Real.sin (2 * Real.pi * (p : ℝ))|
            ≤ (g.config.amplitude : ℝ) / (g.config.num_tones : ℝ))
      ∧ ∀ x ∈ (g.generate_buffer buf).1, |x| ≤ (g.config.amplitude : ℝ) :=
  ⟨sampleOf_abs_le g h0 hn hw,
   fun p => sin_term_abs_le g.config.amplitude g.config.num_tones p h0,
   generate_buffer_abs_le buf g h0 hn hw⟩

/-- C1 (witness): the freshly constructed default generator (amplitude
1/4, three tones) and a two-slot buffer. -/
theorem next_sample_in_amplitude_range_witness :
    (0 : ℚ) ≤ (SignalGenerator.new defaultConfig).config.amplitude
      ∧ (SignalGenerator.new defaultConfig).config.amplitude ≤ 1
      ∧ 1 ≤ (SignalGenerator.new defaultConfig).config.num_tones
      ∧ (SignalGenerator.new defaultConfig).tone_phases.length
          = (SignalGenerator.new defaultConfig).config.num_tones
      ∧ (|(SignalGenerator.new defaultConfig).sampleOf|
            ≤ ((SignalGenerator.new defaultConfig).config.amplitude : ℝ)
          ∧ (∀ p : ℚ,
              |(((SignalGenerator.new defaultConfig).config.amplitude
                    / ((SignalGenerator.new defaultConfig).config.num_tones : ℚ) : ℚ) : ℝ)
                  * Real.sin (2 * Real.pi * (p : ℝ))|
                ≤ ((SignalGenerator.new defaultConfig).config.amplitude : ℝ)
                    / ((SignalGenerator.new defaultConfig).config.num_tones : ℝ))
          ∧ ∀ x ∈ ((SignalGenerator.new defaultConfig).generate_buffer [0, 0]).1,
              |x| ≤ ((SignalGenerator.new defaultConfig).config.amplitude : ℝ)) :=
  ⟨by norm_num [SignalGenerator.new, defaultConfig],
   by norm_num [SignalGenerator.new, defaultConfig],
   by norm_num [SignalGenerator.new, defaultConfig],
   by simp [SignalGenerator.new, defaultConfig],
   next_sample_in_amplitude_range (SignalGenerator.new defaultConfig) [0, 0]
     (by norm_num [SignalGenerator.new, defaultConfig])
     (by norm_num [SignalGenerator.new, defaultConfig])
     (by norm_num [SignalGenerator.new, defaultConfig])
     (by simp [SignalGenerator.new, defaultConfig])⟩

/-- The phase invariant: the master phase and every tone accumulator lie
in `[0, 1)`. -/
def PhasesOk (g : SignalGenerator) : Prop :=
  (0 ≤ g.phase ∧ g.phase < 1) ∧ ∀ p ∈ g.tone_phases, 0 ≤ p ∧ p < 1

/-- The frequency side condition of the invariant claim: every effective
tone frequency (for one tone this is the base frequency itself, since the
offset of tone 0 is then zero) is nonnegative and below the sample rate. -/
def FreqOk (c : SignalConfig) : Prop :=
  ∀ i, i < c.num_tones →
    0 ≤ toneFreq c i ∧ toneFreq c i < (c.sample_rate : ℚ)

/-- The wrap keeps a phase in `[0, 1)` when the increment is in `[0, 1)`:
the sum is in `[0, 2)` and at most one subtraction occurs. -/
lemma wrap_bounds (p d : ℚ) (hp0 : 0 ≤ p) (hp1 : p < 1)
    (hd0 : 0 ≤ d) (hd1 : d < 1) :
    0 ≤ wrap (p + d) ∧ wrap (p + d) < 1 := by
  rw [wrap]
  split_ifs with h
  · exact ⟨by linarith, by linarith⟩
  · exact ⟨by linarith, by linarith⟩

/-- A frequency in `[0, sample_rate)` yields a phase increment in `[0, 1)`. -/
lemma freq_div_bounds (f : ℚ) (r : ℕ) (h0 : 0 ≤ f) (h1 : f < (r : ℚ)) :
    0 ≤ f / (r : ℚ) ∧ f / (r : ℚ) < 1 := by
  have hr : (0 : ℚ) < (r : ℚ) := lt_of_le_of_lt h0 h1
  exact ⟨div_nonneg h0 hr.le, (div_lt_one hr).mpr h1⟩

/-- With the single-tone configuration the one tone's effective frequency
is the base frequency (its offset is zero). -/
lemma toneFreq_single (c : SignalConfig) (h : c.num_tones = 1) :
    toneFreq c 0 = c.frequency := by
  have h1 : ((c.num_tones : ℕ) : ℚ) = 1 := by rw [h]; norm_num
  rw [toneFreq, h1]
  push_cast
  ring

/-- The multi-tone loop keeps every accumulator in `[0, 1)` provided each
tone it touches has an in-range frequency. -/
lemma stepTones_mem_bounds (c : SignalConfig) :
    ∀ (ps : List ℚ) (k : ℕ),
      (∀ j, j < k + ps.length →
        0 ≤ toneFreq c j ∧ toneFreq c j < (c.sample_rate : ℚ)) →
      (∀ p ∈ ps, 0 ≤ p ∧ p < 1) →
      ∀ q ∈ stepTones c k ps, 0 ≤ q ∧ q < 1 := by
  intro ps
  induction ps with
  | nil => intro k _ _ q hq; simp [stepTones] at hq
  | cons p ps ih =>
      intro k hf hp q hq
      simp only [stepTones, List.mem_cons] at hq
      rcases hq with rfl | hq
      · have hfk := hf k (by simp only [List.length_cons]; omega)
        have hd := freq_div_bounds (toneFreq c k) c.sample_rate hfk.1 hfk.2
        have hpk := hp p (List.mem_cons_self p ps)
        exact wrap_bounds p _ hpk.1 hpk.2 hd.1 hd.2
      · refine ih (k + 1) ?_ ?_ q hq
        · intro j hj
          refine hf j ?_
          simp only [List.length_cons]
          omega
        · intro q' hq'
          exact hp q' (List.mem_cons_of_mem p hq')

/-- The transition of `next_sample` preserves the phase invariant. -/
lemma step_phases_ok (g : SignalGenerator) (hf : FreqOk g.config)
    (hw : g.tone_phases.length = g.config.num_tones) (hp : PhasesOk g) :
    PhasesOk g.step := by
  by_cases h : g.config.num_tones = 1
  · rw [step_single_tone g h]
    refine ⟨?_, hp.2⟩
    have hf0 := hf 0 (by omega)
    rw [toneFreq_single g.config h] at hf0
    have hd := freq_div_bounds g.config.frequency g.config.sample_rate hf0.1 hf0.2
    exact wrap_bounds g.phase _ hp.1.1 hp.1.2 hd.1 hd.2
  · rw [step_multi_tone g h]
    refine ⟨hp.1, ?_⟩
    refine stepTones_mem_bounds g.config g.tone_phases 0 ?_ hp.2
    intro j hj
    refine hf j ?_
    omega

/-- The loop of `generate_buffer` preserves the phase invariant. -/
lemma generate_buffer_phases_ok (buf : List ℝ) :
    ∀ g : SignalGenerator, FreqOk g.config →
      g.tone_phases.length = g.config.num_tones → PhasesOk g →
      PhasesOk (g.generate_buffer buf).2 := by
  induction buf with
  | nil => intro g _ _ hp; exact hp
  | cons b rest ih =>
      intro g hf hw hp
      show PhasesOk (SignalGenerator.generate_buffer g.step rest).2
      refine ih g.step ?_ ?_ (step_phases_ok g hf hw hp)
      · rw [step_config]; exact hf
      · rw [step_length, step_config]; exact hw

/-- A freshly constructed generator satisfies the phase invariant. -/
lemma new_phases_ok (c : SignalConfig) :
    PhasesOk (SignalGenerator.new c) := by
  refine ⟨⟨le_refl 0, by norm_num [SignalGenerator.new]⟩, ?_⟩
  intro p hp
  have hp0 := List.eq_of_mem_replicate hp
  subst hp0
  exact ⟨le_refl 0, by norm_num⟩

/-- C10: for every configuration whose effective tone frequencies all lie
in `[0, sample_rate)`, the master phase and every tone accumulator start
in `[0, 1)` and stay in `[0, 1)` across `next_sample`, `generate_buffer`
and `update_config` — each step adds `f / sample_rate` and subtracts 1 at
most once on wrap. -/
theorem phase_accumulators_in_unit_interval (c : SignalConfig)
    (g : SignalGenerator) (buf : List ℝ)
    (hf : FreqOk g.config)
    (hw : g.tone_phases.length = g.config.num_tones)
    (hp : PhasesOk g) :
    PhasesOk (SignalGenerator.new c) ∧ PhasesOk (g.update_config c)
      ∧ PhasesOk g.step ∧ PhasesOk (g.generate_buffer buf).2 :=
  ⟨new_phases_ok c, new_phases_ok c,
   step_phases_ok g hf hw hp,
   generate_buffer_phases_ok buf g hf hw hp⟩

/-- C10 (witness): the 1000 Hz single-tone generator, reconfigured to the
default config, with a one-slot buffer. -/
theorem phase_accumulators_witness :
    FreqOk (SignalGenerator.new cfg1000).config
      ∧ (SignalGenerator.new cfg1000).tone_phases.length
          = (SignalGenerator.new cfg1000).config.num_tones
      ∧ PhasesOk (SignalGenerator.new cfg1000)
      ∧ (PhasesOk (SignalGenerator.new defaultConfig)
          ∧ PhasesOk ((SignalGenerator.new cfg1000).update_config defaultConfig)
          ∧ PhasesOk (SignalGenerator.new cfg1000).step
          ∧ PhasesOk ((SignalGenerator.new cfg1000).generate_buffer [0]).2) :=
  ⟨by
    intro i hi
    have hi0 : i = 0 := by
      have hn : (SignalGenerator.new cfg1000).config.num_tones = 1 := rfl
      omega
    subst hi0
    constructor <;> norm_num [toneFreq, SignalGenerator.new, cfg1000],
   by simp [SignalGenerator.new, cfg1000],
   new_phases_ok cfg1000,
   phase_accumulators_in_unit_interval defaultConfig
     (SignalGenerator.new cfg1000) [0]
     (by
       intro i hi
       have hi0 : i = 0 := by
         have hn : (SignalGenerator.new cfg1000).config.num_tones = 1 := rfl
         omega
       subst hi0
       constructor <;> norm_num [toneFreq, SignalGenerator.new, cfg1000])
     (by simp [SignalGenerator.new, cfg1000])
     (new_phases_ok cfg1000)⟩
